import Mathlib

/-!
Verification of the Bible Plan RSS feed generator (worker implementation).

The development shallowly embeds the worker's schedule-computation and
feed-assembly core: JavaScript `Date` values are modelled as integer epoch
milliseconds together with an explicit timezone offset `tz` (the value of
`getTimezoneOffset()`, in minutes west of UTC), and the civil-calendar
conversions performed by the JS engine are modelled by the standard
proleptic-Gregorian day-number algorithms.  All functions are executable.
-/

/-! ## Proleptic Gregorian calendar arithmetic -/

/-- Civil date `(year, month, day)` (month is 1-based) of an epoch day number,
using the standard proleptic Gregorian algorithm with floor division. -/
def civilFromDays (z0 : Int) : Int × Int × Int :=
  let z := z0 + 719468
  let era := z / 146097
  let doe := z % 146097
  let yoe := (doe - doe / 1460 + doe / 36524 - doe / 146096) / 365
  let y := yoe + era * 400
  let doy := doe - (365 * yoe + yoe / 4 - yoe / 100)
  let mp := (5 * doy + 2) / 153
  let d := doy - (153 * mp + 2) / 5 + 1
  let m := mp + (if mp < 10 then 3 else -9)
  (if m <= 2 then y + 1 else y, m, d)

/-- Epoch day number of a civil date `(year, month, day)` (month 1-based).
The formula is affine in `d`, so out-of-range days roll over exactly as the
JavaScript `Date` constructor does (e.g. Feb 30 becomes Mar 2). -/
def daysFromCivil (y m d : Int) : Int :=
  let yAdj := if m <= 2 then y - 1 else y
  let era := yAdj / 400
  let yoe := yAdj - era * 400
  let mp := if m > 2 then m - 3 else m + 9
  let doy := (153 * mp + 2) / 5 + d - 1
  let doe := yoe * 365 + yoe / 4 - yoe / 100 + doy
  era * 146097 + doe - 719468

/-- Year-of-era extraction step of `civilFromDays`, over `Nat`. -/
def natYoe (w : Nat) : Nat := (w - w / 1460 + w / 36524 - w / 146096) / 365

/-- First day-of-era of a year-of-era, over `Nat`. -/
def natFirst (y : Nat) : Nat := 365 * y + y / 4 - y / 100

/-! ## JavaScript `Date` model

A `Date` value is its epoch-milliseconds timestamp (an integer; the worker
only ever works at millisecond granularity).  The ambient timezone is a
fixed offset `tz` in minutes, with the sign convention of JavaScript's
`getTimezoneOffset()`: local time = UTC time minus `tz` minutes. -/

/-- Milliseconds per day. -/
def dayMs : Int := 86400000

/-- Local civil date of a timestamp under timezone offset `tz`. -/
def jsLocalCivil (tz ms : Int) : Int × Int × Int :=
  civilFromDays ((ms - tz * 60000) / dayMs)

/-- `date.getFullYear()`. -/
def jsGetFullYear (tz ms : Int) : Int := (jsLocalCivil tz ms).1

/-- `date.getMonth()` (0-based). -/
def jsGetMonth (tz ms : Int) : Int := (jsLocalCivil tz ms).2.1 - 1

/-- `date.getDate()` (day of month). -/
def jsGetDate (tz ms : Int) : Int := (jsLocalCivil tz ms).2.2

/-- UTC civil date of a timestamp. -/
def jsUTCCivil (ms : Int) : Int × Int × Int := civilFromDays (ms / dayMs)

/-- `date.getUTCFullYear()`. -/
def jsGetUTCFullYear (ms : Int) : Int := (jsUTCCivil ms).1

/-- `date.getUTCMonth()` (0-based). -/
def jsGetUTCMonth (ms : Int) : Int := (jsUTCCivil ms).2.1 - 1

/-- `date.getUTCDate()`. -/
def jsGetUTCDate (ms : Int) : Int := (jsUTCCivil ms).2.2

/-- `Date.UTC(y, m0, d)` with 0-based month `m0`. -/
def jsDateUTC (y m0 d : Int) : Int := daysFromCivil y (m0 + 1) d * dayMs

/-- `new Date(y, m0, d)`: local midnight of the (possibly rolled-over)
civil date, with 0-based month `m0`. -/
def jsNewDateYMD (tz y m0 d : Int) : Int :=
  daysFromCivil y (m0 + 1) d * dayMs + tz * 60000

/-- `date.setDate(n)`: keep the local time of day, set the day of month to
`n` (rolling over as needed); returns the resulting timestamp. -/
def jsSetDate (tz ms n : Int) : Int :=
  let lms := ms - tz * 60000
  let c := civilFromDays (lms / dayMs)
  daysFromCivil c.1 c.2.1 n * dayMs + lms % dayMs + tz * 60000

/-- Local midnight timestamp of an epoch day number under offset `tz`. -/
def localMidnightOfDay (tz dayNumber : Int) : Int := dayNumber * dayMs + tz * 60000

/-- Epoch day number of the UTC calendar date of a timestamp. -/
def utcDayNumber (ms : Int) : Int := ms / dayMs

/-- Epoch day number of the local calendar date of a timestamp. -/
def localDayNumber (tz ms : Int) : Int := (ms - tz * 60000) / dayMs

/-! ## JavaScript string and number primitives used by the worker -/

/-- The apostrophe character (U+0027). -/
def apos : Char := Char.ofNat 39

/-- JavaScript whitespace accepted by `parseInt` (ASCII portion). -/
def jsIsSpace (c : Char) : Bool :=
  c = ' ' || c = Char.ofNat 9 || c = Char.ofNat 10 || c = Char.ofNat 11 ||
  c = Char.ofNat 12 || c = Char.ofNat 13

/-- Accumulate the numeric value of a maximal leading digit run. -/
def parseDigits : List Char → Nat → Nat
  | [], acc => acc
  | c :: cs, acc => if c.isDigit then parseDigits cs (acc * 10 + (c.toNat - 48)) else acc

/-- `parseInt(s, 10)`: skip leading whitespace, optional sign, then a maximal
digit run; `none` models `NaN` (no leading digit). -/
def jsParseInt (s : String) : Option Int :=
  let t := s.data.dropWhile jsIsSpace
  match t with
  | '-' :: r =>
    match r with
    | c :: _ => if c.isDigit then some (-(parseDigits r 0 : Int)) else none
    | [] => none
  | '+' :: r =>
    match r with
    | c :: _ => if c.isDigit then some ((parseDigits r 0 : Int)) else none
    | [] => none
  | c :: _ => if c.isDigit then some ((parseDigits t 0 : Int)) else none
  | [] => none

/-- `s.substring(a, b)` (used only with `0 ≤ a ≤ b ≤ s.length`). -/
def jsSubstring (s : String) (a b : Nat) : String :=
  String.mk ((s.data.drop a).take (b - a))

/-- `s.padStart(2, "0")`. -/
def padStart2 (s : String) : String :=
  String.mk (List.replicate (2 - s.data.length) '0') ++ s

/-- `s.toUpperCase()` (ASCII; all strings involved are ASCII). -/
def jsToUpperCase (s : String) : String := String.mk (s.data.map Char.toUpper)

/-- A JavaScript number that may be `NaN` (modelled as `none`): `x < b`.
Any comparison against `NaN` is false. -/
def jsNumLt (a : Option Int) (b : Int) : Bool :=
  match a with
  | none => false
  | some x => x < b

/-- A possibly-`NaN` number compared `x > b`; false when `NaN`. -/
def jsNumGt (a : Option Int) (b : Int) : Bool :=
  match a with
  | none => false
  | some x => b < x

/-- Strict inequality `a !== b` on possibly-`NaN` numbers: `NaN !== x` is
always true (including `NaN !== NaN`). -/
def jsStrictNe (a b : Option Int) : Bool :=
  match a, b with
  | some x, some y => decide (x ≠ y)
  | _, _ => true

/-- `new Date(y, m0, d)` where any argument may be `NaN`; an `NaN` argument
yields an Invalid Date (`none`). -/
def jsNewDateOpt (tz : Int) (y m0 d : Option Int) : Option Int :=
  match y, m0, d with
  | some a, some b, some c => some (jsNewDateYMD tz a b c)
  | _, _, _ => none

/-- `date.getMonth()` of a possibly-Invalid Date; `NaN` (`none`) if invalid. -/
def jsGetMonthOpt (tz : Int) (dms : Option Int) : Option Int :=
  dms.map (jsGetMonth tz)

/-- Uppercase hexadecimal digit. -/
def hexDigit (n : Nat) : Char :=
  if n < 10 then Char.ofNat (48 + n) else Char.ofNat (55 + n)

/-- UTF-8 bytes of a code point. -/
def utf8Bytes (c : Char) : List Nat :=
  let n := c.toNat
  if n < 128 then [n]
  else if n < 2048 then [192 + n / 64, 128 + n % 64]
  else if n < 65536 then [224 + n / 4096, 128 + n / 64 % 64, 128 + n % 64]
  else [240 + n / 262144, 128 + n / 4096 % 64, 128 + n / 64 % 64, 128 + n % 64]

/-- Characters `encodeURIComponent` leaves unescaped. -/
def uriUnreserved (c : Char) : Bool :=
  c.isAlpha || c.isDigit || c = '-' || c = '_' || c = '.' || c = '!' ||
  c = '~' || c = '*' || c = apos || c = '(' || c = ')'

/-- `encodeURIComponent(s)`: unreserved characters pass through, every other
character is percent-encoded byte by byte (UTF-8, uppercase hex). -/
def encodeURIComponent (s : String) : String :=
  String.mk (s.data.flatMap fun c =>
    if uriUnreserved c then [c]
    else (utf8Bytes c).flatMap fun b => ['%', hexDigit (b / 16), hexDigit (b % 16)])

/-! ## RFC-822 serialization: `Date.prototype.toUTCString` -/

/-- Two-digit zero padding of a (non-negative) number. -/
def pad2 (n : Int) : String := if n < 10 then "0" ++ toString n else toString n

/-- Four-digit zero padding of a year. -/
def pad4 (n : Int) : String :=
  if n < 10 then "000" ++ toString n
  else if n < 100 then "00" ++ toString n
  else if n < 1000 then "0" ++ toString n
  else toString n

/-- Three-letter English weekday name; day 0 is Sunday. -/
def weekdayName (w : Int) : String :=
  if w = 0 then "Sun" else if w = 1 then "Mon" else if w = 2 then "Tue"
  else if w = 3 then "Wed" else if w = 4 then "Thu" else if w = 5 then "Fri"
  else "Sat"

/-- Three-letter English month name (1-based). -/
def monthName (m : Int) : String :=
  if m = 1 then "Jan" else if m = 2 then "Feb" else if m = 3 then "Mar"
  else if m = 4 then "Apr" else if m = 5 then "May" else if m = 6 then "Jun"
  else if m = 7 then "Jul" else if m = 8 then "Aug" else if m = 9 then "Sep"
  else if m = 10 then "Oct" else if m = 11 then "Nov" else "Dec"

/-- `date.toUTCString()`: `Www, DD Mon YYYY HH:MM:SS GMT`
(epoch day 0, 1970-01-01, was a Thursday). -/
def jsToUTCString (ms : Int) : String :=
  let day := ms / dayMs
  let tod := ms % dayMs
  let c := civilFromDays day
  weekdayName ((day + 4) % 7) ++ ", " ++ pad2 c.2.2 ++ " " ++ monthName c.2.1 ++
    " " ++ pad4 c.1 ++ " " ++ pad2 (tod / 3600000) ++ ":" ++
    pad2 (tod % 3600000 / 60000) ++ ":" ++ pad2 (tod % 60000 / 1000) ++ " GMT"

/-! ## Book/chapter catalogs and feed data model

The worker imports its catalogs from `src/resources/full.json`,
`src/resources/ot.json` and `src/resources/nt.json`; those resource files
are not part of the available sources, so the catalogs are reconstructed
here from the specification: ordered (book, chapter) sequences covering
each plan's full chapter range in canonical reading order, with the
full-Bible catalog 1189 chapters long, the Old Testament catalog starting
at Genesis 1 and the New Testament catalog starting at Matthew 1. -/

/-- One catalog entry, as in the worker's `BookChapter` interface. -/
structure BookChapter where
  Book : String
  Chapter : Nat
deriving DecidableEq, Repr

/-- Modelled from the spec: Old Testament books with their chapter counts
(39 books, 929 chapters, canonical order). -/
def otBooks : List (String × Nat) :=
  [("Genesis", 50), ("Exodus", 40), ("Leviticus", 27), ("Numbers", 36),
   ("Deuteronomy", 34), ("Joshua", 24), ("Judges", 21), ("Ruth", 4),
   ("1 Samuel", 31), ("2 Samuel", 24), ("1 Kings", 22), ("2 Kings", 25),
   ("1 Chronicles", 29), ("2 Chronicles", 36), ("Ezra", 10), ("Nehemiah", 13),
   ("Esther", 10), ("Job", 42), ("Psalms", 150), ("Proverbs", 31),
   ("Ecclesiastes", 12), ("Song of Solomon", 8), ("Isaiah", 66),
   ("Jeremiah", 52), ("Lamentations", 5), ("Ezekiel", 48), ("Daniel", 12),
   ("Hosea", 14), ("Joel", 3), ("Amos", 9), ("Obadiah", 1), ("Jonah", 4),
   ("Micah", 7), ("Nahum", 3), ("Habakkuk", 3), ("Zephaniah", 3),
   ("Haggai", 2), ("Zechariah", 14), ("Malachi", 4)]

/-- Modelled from the spec: New Testament books with their chapter counts
(27 books, 260 chapters, canonical order). -/
def ntBooks : List (String × Nat) :=
  [("Matthew", 28), ("Mark", 16), ("Luke", 24), ("John", 21), ("Acts", 28),
   ("Romans", 16), ("1 Corinthians", 16), ("2 Corinthians", 13),
   ("Galatians", 6), ("Ephesians", 6), ("Philippians", 4), ("Colossians", 4),
   ("1 Thessalonians", 5), ("2 Thessalonians", 3), ("1 Timothy", 6),
   ("2 Timothy", 4), ("Titus", 3), ("Philemon", 1), ("Hebrews", 13),
   ("James", 5), ("1 Peter", 5), ("2 Peter", 3), ("1 John", 5), ("2 John", 1),
   ("3 John", 1), ("Jude", 1), ("Revelation", 22)]

/-- Expand a book list into its ordered chapter catalog. -/
def expandBooks (bs : List (String × Nat)) : List BookChapter :=
  bs.flatMap fun p => (List.range p.2).map fun i => ⟨p.1, i + 1⟩

/-- Modelled from the spec: `src/resources/ot.json` (929 chapters). -/
def otBookList : List BookChapter := expandBooks otBooks

/-- Modelled from the spec: `src/resources/nt.json` (260 chapters). -/
def ntBookList : List BookChapter := expandBooks ntBooks

/-- Modelled from the spec: `src/resources/full.json` (1189 chapters). -/
def fullBookList : List BookChapter := expandBooks (otBooks ++ ntBooks)

/-- One RSS feed item, as in the worker's `RSSItem` interface
(`date` is the epoch-milliseconds timestamp of the JS `Date`). -/
structure RSSItem where
  title : String
  description : String
  url : String
  author : String
  date : Int
deriving DecidableEq, Repr

/-- Feed metadata record built by the worker's fetch handler. -/
structure FeedMetadata where
  title : String
  description : String
  feedUrl : String
  siteUrl : String
  imageUrl : String
  managingEditor : String
  webMaster : String
  copyright : String
  language : String
  pubDate : Int
  ttl : Nat
deriving DecidableEq, Repr

/-! ## The worker's functions (translated from `src/worker.ts`) -/

/-- Fixed external reading-service endpoint (`bibleGatewaySlug`). -/
def bibleGatewaySlug : String := "https://www.biblegateway.com/passage/?search="

/-- Replace every occurrence of character `c` by the string `r`
(`String.prototype.replace` with a global single-character pattern). -/
def replaceAll (c : Char) (r : List Char) : List Char → List Char
  | [] => []
  | x :: xs => if x = c then r ++ replaceAll c r xs else x :: replaceAll c r xs

/-- `escapeXML`: chained global replacements of the five reserved XML
characters, ampersand first. -/
def escapeXML (str : String) : String :=
  String.mk (replaceAll apos "&apos;".data
    (replaceAll '"' "&quot;".data
      (replaceAll '>' "&gt;".data
        (replaceAll '<' "&lt;".data
          (replaceAll '&' "&amp;".data str.data)))))

/-- `formatRSSDate`: RFC-822 serialization via `toUTCString`. -/
def formatRSSDate (dateMs : Int) : String := jsToUTCString dateMs

/-- `array.join("")`: concatenation of a list of strings. -/
def joinAll : List String → String
  | [] => ""
  | s :: rest => s ++ joinAll rest

/-- The `<item>` block rendered for one feed item inside `generateRSSXML`. -/
def itemXML (item : RSSItem) : String :=
  "\n    <item>\n      <title>" ++ escapeXML item.title ++
  "</title>\n      <description>" ++ escapeXML item.description ++
  "</description>\n      <link>" ++ escapeXML item.url ++
  "</link>\n      <guid isPermaLink=\"true\">" ++ escapeXML item.url ++
  "</guid>\n      <pubDate>" ++ formatRSSDate item.date ++
  "</pubDate>\n      <author>" ++ escapeXML item.author ++
  "</author>\n    </item>"

/-- `generateRSSXML`: manual serialization of the channel and its items. -/
def generateRSSXML (feedMetadata : FeedMetadata) (items : List RSSItem) : String :=
  let itemsXML := joinAll (items.map itemXML)
  "<?xml version=\"1.0\" encoding=\"UTF-8\"?>\n<rss version=\"2.0\" xmlns:atom=\"http://www.w3.org/2005/Atom\">\n  <channel>\n    <title>" ++
  escapeXML feedMetadata.title ++ "</title>\n    <description>" ++
  escapeXML feedMetadata.description ++ "</description>\n    <link>" ++
  escapeXML feedMetadata.siteUrl ++ "</link>\n    <atom:link href=\"" ++
  escapeXML feedMetadata.feedUrl ++
  "\" rel=\"self\" type=\"application/rss+xml\"/>\n    <language>" ++
  escapeXML feedMetadata.language ++ "</language>\n    <managingEditor>" ++
  escapeXML feedMetadata.managingEditor ++ "</managingEditor>\n    <webMaster>" ++
  escapeXML feedMetadata.webMaster ++ "</webMaster>\n    <copyright>" ++
  escapeXML feedMetadata.copyright ++ "</copyright>\n    <pubDate>" ++
  formatRSSDate feedMetadata.pubDate ++ "</pubDate>\n    <ttl>" ++
  toString feedMetadata.ttl ++ "</ttl>\n    <image>\n      <url>" ++
  escapeXML feedMetadata.imageUrl ++ "</url>\n      <title>" ++
  escapeXML feedMetadata.title ++ "</title>\n      <link>" ++
  escapeXML feedMetadata.siteUrl ++ "</link>\n    </image>" ++
  itemsXML ++ "\n  </channel>\n</rss>"

/-- `SanitizePlan`: keep `nt` / `ot` / `full`, otherwise `full`. -/
def SanitizePlan (plan : String) : String :=
  if plan = "nt" || plan = "ot" || plan = "full" then plan else "full"

/-- `SanitizeDate`: parse `YYYYMMDD`, validate ranges, reject rollover by
re-reading the constructed date's month; any failure falls back to the
current date (`nowMs`).  `NaN` parse results flow through the comparisons
exactly as in JavaScript (every comparison with `NaN` is false, and
`NaN !== NaN` is true, so non-numeric input falls back at the month check). -/
def SanitizeDate (tz nowMs : Int) (dateString : String) : Int :=
  if dateString.length ≠ 8 then nowMs
  else
    let year := jsParseInt (jsSubstring dateString 0 4)
    let month := (jsParseInt (jsSubstring dateString 4 6)).map fun x => x - 1
    let day := jsParseInt (jsSubstring dateString 6 8)
    if jsNumLt year 1900 || jsNumGt year 2100 || jsNumLt month 0 ||
        jsNumGt month 11 || jsNumLt day 1 || jsNumGt day 31 then nowMs
    else
      let date := jsNewDateOpt tz year month day
      if jsStrictNe (jsGetMonthOpt tz date) month then nowMs
      else
        match date with
        | some ms => ms
        | none => nowMs

/-- `SanitizeChapters`: reject raw strings longer than 2 characters, parse
as integer, fall back to 1 unless the value lies in [1, 99]. -/
def SanitizeChapters (chapters : String) : Nat :=
  if chapters.length > 2 then 1
  else
    match jsParseInt chapters with
    | none => 1
    | some result => if result < 1 || result > 99 then 1 else result.toNat

/-- `formatDateToyyyyMMdd`: local-calendar rendering of a date. -/
def formatDateToyyyyMMdd (tz ms : Int) : String :=
  toString (jsGetFullYear tz ms) ++
  padStart2 (toString (jsGetMonth tz ms + 1)) ++
  padStart2 (toString (jsGetDate tz ms))

/-- `getDaysBetween`: whole days between today's UTC calendar date and the
start date's local calendar date, as `floor(|Δms| / dayMs)`. -/
def getDaysBetween (tz nowMs dateMs : Int) : Nat :=
  let nowUTC := jsDateUTC (jsGetUTCFullYear nowMs) (jsGetUTCMonth nowMs) (jsGetUTCDate nowMs)
  let compareUTC := jsDateUTC (jsGetFullYear tz dateMs) (jsGetMonth tz dateMs) (jsGetDate tz dateMs)
  (nowUTC - compareUTC).natAbs / 86400000

/-- `BuildBibleGatewayURL`. -/
def BuildBibleGatewayURL (book : String) (chapter : Nat) (translation : String) : String :=
  bibleGatewaySlug ++ encodeURIComponent book ++ "%20" ++ toString chapter ++
    "&version=" ++ translation

/-- Ceiling division on `Nat` (`Math.ceil((i + 1) / n)` for positive `n`). -/
def ceilDiv (a b : Nat) : Nat := (a + b - 1) / b

/-- The `bookListMap[plan] || fullBookList` catalog selection. -/
def bookListFor (plan : String) : List BookChapter :=
  if plan = "full" then fullBookList
  else if plan = "ot" then otBookList
  else if plan = "nt" then ntBookList
  else fullBookList

/-- `processChapter` inside `BuildRSSFeedItems`. -/
def processChapter (tz nowMs : Int) (plan translation : String)
    (numberOfChapters daysBetween : Nat) (chapter : BookChapter) (index : Nat) : RSSItem :=
  { title := chapter.Book ++ " " ++ toString chapter.Chapter
    description := "Day " ++ toString (ceilDiv (index + 1) numberOfChapters) ++ " of " ++
      jsToUpperCase plan ++ " plan in " ++ jsToUpperCase translation
    url := BuildBibleGatewayURL chapter.Book chapter.Chapter translation
    author := "Bible Gateway"
    date := jsSetDate tz nowMs
      (jsGetDate tz nowMs - 1 -
        ((daysBetween : Int) - (ceilDiv (index + 1) numberOfChapters : Int))) }

/-- `BuildRSSFeedItems`. -/
def BuildRSSFeedItems (tz nowMs : Int) (plan translation : String)
    (startDate : Int) (numberOfChapters : Nat) : List RSSItem :=
  let daysBetween := getDaysBetween tz nowMs startDate
  let chaptersToGet := min (daysBetween * numberOfChapters) 1189
  let bookList := bookListFor plan
  (bookList.take chaptersToGet).mapIdx fun i c =>
    processChapter tz nowMs plan translation numberOfChapters daysBetween c i

/-- The `feedUrl` string built by the fetch handler's `feedMetadata`
(note the segment order used by the code: plan, formatted start date,
translation, chapter count). -/
def handlerFeedUrl (tz : Int) (sanitizedPlan sanitizedTranslation : String)
    (sanitizedStartDateMs : Int) (sanitizedChapters : Nat) : String :=
  "https://www.bibleplanfeed.com/rssbible/" ++ sanitizedPlan ++ "/" ++
  formatDateToyyyyMMdd tz sanitizedStartDateMs ++ "/" ++ sanitizedTranslation ++
  "/" ++ toString sanitizedChapters ++ "/feed.rss"

/-- Modelled from the spec: the documented route shape
`/rssbible/{plan}/{translation}/{startDate}/{chapters}/feed.rss`
instantiated at given segment values (the route-matching regular expression
in the fetch handler consumes the segments in this order). -/
def routeShapeUrl (plan translation startDate chapters : String) : String :=
  "https://www.bibleplanfeed.com/rssbible/" ++ plan ++ "/" ++ translation ++
  "/" ++ startDate ++ "/" ++ chapters ++ "/feed.rss"

/-! ## Definitions used to state the escaping property (C2) -/

/-- Characters that are markup-significant when they appear raw in XML
text content or attribute values (apart from `&`, handled separately). -/
def isReservedChar (c : Char) : Bool :=
  c = '<' || c = '>' || c = '"' || c = apos

/-- Does the list start with one of the five entity tails after an `&`? -/
def entityAt (rest : List Char) : Bool :=
  "amp;".data.isPrefixOf rest || "lt;".data.isPrefixOf rest ||
  "gt;".data.isPrefixOf rest || "quot;".data.isPrefixOf rest ||
  "apos;".data.isPrefixOf rest

/-- A character list contains reserved markup characters only as entity
escapes: no raw `<`, `>`, `"`, `'`, and every `&` begins one of
`&amp; &lt; &gt; &quot; &apos;`. -/
def entityClean : List Char → Bool
  | [] => true
  | c :: rest =>
    if isReservedChar c then false
    else if c = '&' then entityAt rest && entityClean rest
    else entityClean rest

/-- Single-character escaping table; `escapeXML` is its pointwise extension. -/
def escChar (c : Char) : List Char :=
  if c = '&' then "&amp;".data
  else if c = '<' then "&lt;".data
  else if c = '>' then "&gt;".data
  else if c = '"' then "&quot;".data
  else if c = apos then "&apos;".data
  else [c]

/-- Every free-text string field the worker inserts into the rendered feed
(channel metadata strings and, for each item: title, description, link
target and author). -/
def textFields (md : FeedMetadata) (items : List RSSItem) : List String :=
  [md.title, md.description, md.siteUrl, md.feedUrl, md.language,
   md.managingEditor, md.webMaster, md.copyright, md.imageUrl] ++
  items.flatMap fun it => [it.title, it.description, it.url, it.author]

/-- Does a string contain one of the five reserved markup characters? -/
def containsReserved (s : String) : Bool :=
  s.data.any fun c => isReservedChar c || c = '&'

/-- The alternating fixed/inserted segments of one rendered `<item>` block. -/
def itemSegments (item : RSSItem) : List String :=
  ["\n    <item>\n      <title>", escapeXML item.title,
   "</title>\n      <description>", escapeXML item.description,
   "</description>\n      <link>", escapeXML item.url,
   "</link>\n      <guid isPermaLink=\"true\">", escapeXML item.url,
   "</guid>\n      <pubDate>", formatRSSDate item.date,
   "</pubDate>\n      <author>", escapeXML item.author,
   "</author>\n    </item>"]

/-- The alternating fixed/inserted segments of the whole rendered feed. -/
def rssSegments (md : FeedMetadata) (items : List RSSItem) : List String :=
  ["<?xml version=\"1.0\" encoding=\"UTF-8\"?>\n<rss version=\"2.0\" xmlns:atom=\"http://www.w3.org/2005/Atom\">\n  <channel>\n    <title>",
   escapeXML md.title, "</title>\n    <description>",
   escapeXML md.description, "</description>\n    <link>",
   escapeXML md.siteUrl, "</link>\n    <atom:link href=\"",
   escapeXML md.feedUrl, "\" rel=\"self\" type=\"application/rss+xml\"/>\n    <language>",
   escapeXML md.language, "</language>\n    <managingEditor>",
   escapeXML md.managingEditor, "</managingEditor>\n    <webMaster>",
   escapeXML md.webMaster, "</webMaster>\n    <copyright>",
   escapeXML md.copyright, "</copyright>\n    <pubDate>",
   formatRSSDate md.pubDate, "</pubDate>\n    <ttl>",
   toString md.ttl, "</ttl>\n    <image>\n      <url>",
   escapeXML md.imageUrl, "</url>\n      <title>",
   escapeXML md.title, "</title>\n      <link>",
   escapeXML md.siteUrl, "</link>\n    </image>"] ++
  items.flatMap itemSegments ++ ["\n  </channel>\n</rss>"]

/-- The spec's acceptance condition for `SanitizeDate`: an 8-character
string whose three fields parse, with year in [1900, 2100], month in
[1, 12], day in [1, 31], and whose constructed date does not roll over
into a different month (checked, as the code does, by comparing the
constructed date's month with the requested month). -/
def dateAccepted (tz : Int) (raw : String) : Bool :=
  decide (raw.length = 8) &&
  (match jsParseInt (jsSubstring raw 0 4), jsParseInt (jsSubstring raw 4 6),
      jsParseInt (jsSubstring raw 6 8) with
   | some y, some m, some d =>
     decide (1900 ≤ y) && decide (y ≤ 2100) && decide (1 ≤ m) && decide (m ≤ 12) &&
     decide (1 ≤ d) && decide (d ≤ 31) &&
     decide (jsGetMonth tz (jsNewDateYMD tz y (m - 1) d) = m - 1)
   | _, _, _ => false)

/-- The parsed calendar date (as a `Date` timestamp) of an accepted
`YYYYMMDD` string; meaningful only when `dateAccepted` holds. -/
def parsedDateMs (tz : Int) (raw : String) : Int :=
  match jsParseInt (jsSubstring raw 0 4), jsParseInt (jsSubstring raw 4 6),
      jsParseInt (jsSubstring raw 6 8) with
  | some y, some m, some d => jsNewDateYMD tz y (m - 1) d
  | _, _, _ => 0

/-- A concrete metadata record used to instantiate closed statements. -/
def sampleMetadata : FeedMetadata :=
  { title := "Bible Plan Feed"
    description := "a<b&c"
    feedUrl := "https://www.bibleplanfeed.com/rssbible/ot/20260101/ESV/1/feed.rss"
    siteUrl := "https://www.bibleplanfeed.com/"
    imageUrl := "https://www.bibleplanfeed.com/icon.png"
    managingEditor := "github.com/tryonlinux - Not affiliated with Bible Gateway"
    webMaster := "github.com/tryonlinux"
    copyright := "github.com/tryonlinux - Not affiliated with Bible Gateway"
    language := "en"
    pubDate := 0
    ttl := 60 }

/-! ## Calendar correctness: the conversions are mutually inverse -/

set_option maxRecDepth 4000 in
theorem endpoint_check : ∀ n : Nat, n < 400 →
    natYoe (natFirst n) = n ∧ natYoe (natFirst (n + 1) - 1) = n := by decide

theorem natYoe_step (w : Nat) : natYoe w ≤ natYoe (w + 1) := by
  unfold natYoe
  omega

theorem natYoe_mono : ∀ {a b : Nat}, a ≤ b → natYoe a ≤ natYoe b := by
  intro a b h
  induction h with
  | refl => exact Nat.le_refl _
  | step _ ih => exact Nat.le_trans ih (natYoe_step _)

theorem nat_yoe_correct (w : Nat) (hw : w ≤ 146096) :
    natYoe w ≤ 399 ∧ natFirst (natYoe w) ≤ w ∧ w ≤ natFirst (natYoe w) + 365 := by
  have htop : natYoe 146096 = 399 := by decide
  have hup : natYoe w ≤ 399 := by
    have := natYoe_mono hw
    omega
  refine ⟨hup, ?_, ?_⟩
  · by_contra hc
    push_neg at hc
    have hy1 : 1 ≤ natYoe w := by
      by_contra h1
      push_neg at h1
      have h0 : natYoe w = 0 := by omega
      rw [h0] at hc
      have : natFirst 0 = 0 := by decide
      omega
    have he := (endpoint_check (natYoe w - 1) (by omega)).2
    have heq : natYoe w - 1 + 1 = natYoe w := by omega
    rw [heq] at he
    have hm := natYoe_mono (show w ≤ natFirst (natYoe w) - 1 by omega)
    omega
  · by_cases h399 : natYoe w = 399
    · have h1 : natFirst 399 = 145731 := by decide
      rw [h399, h1]
      omega
    · by_contra hc
      push_neg at hc
      have hstep : natFirst (natYoe w + 1) ≤ natFirst (natYoe w) + 366 := by
        unfold natFirst
        omega
      have he := (endpoint_check (natYoe w + 1) (by omega)).1
      have hm := natYoe_mono (show natFirst (natYoe w + 1) ≤ w by omega)
      omega

theorem yoe_correct (w : Int) (hw0 : 0 ≤ w) (hw1 : w ≤ 146096) :
    0 ≤ (w - w / 1460 + w / 36524 - w / 146096) / 365 ∧
    (w - w / 1460 + w / 36524 - w / 146096) / 365 ≤ 399 ∧
    365 * ((w - w / 1460 + w / 36524 - w / 146096) / 365) +
      ((w - w / 1460 + w / 36524 - w / 146096) / 365) / 4 -
      ((w - w / 1460 + w / 36524 - w / 146096) / 365) / 100 ≤ w ∧
    w - (365 * ((w - w / 1460 + w / 36524 - w / 146096) / 365) +
      ((w - w / 1460 + w / 36524 - w / 146096) / 365) / 4 -
      ((w - w / 1460 + w / 36524 - w / 146096) / 365) / 100) ≤ 365 := by
  obtain ⟨n, rfl⟩ : ∃ n : Nat, w = (n : Int) := ⟨w.toNat, by omega⟩
  have h := nat_yoe_correct n (by omega)
  have h1 : ((n : Int) - (n : Int) / 1460 + (n : Int) / 36524 - (n : Int) / 146096) / 365 =
      ((natYoe n : Nat) : Int) := by
    unfold natYoe
    omega
  have h2 : (365 : Int) * ((natYoe n : Nat) : Int) + ((natYoe n : Nat) : Int) / 4 -
      ((natYoe n : Nat) : Int) / 100 = ((natFirst (natYoe n) : Nat) : Int) := by
    unfold natFirst
    omega
  rw [h1, h2]
  omega

theorem rt_aux (era w yoe doy mp d m y : Int)
    (hw0 : 0 ≤ w) (hw1 : w ≤ 146096)
    (hyoe : yoe = (w - w / 1460 + w / 36524 - w / 146096) / 365)
    (hyoe0 : 0 ≤ yoe) (hyoe399 : yoe ≤ 399)
    (hdoy : doy = w - (365 * yoe + yoe / 4 - yoe / 100))
    (hdoy0 : 0 ≤ doy) (hdoy365 : doy ≤ 365)
    (hmp : mp = (5 * doy + 2) / 153)
    (hd : d = doy - (153 * mp + 2) / 5 + 1)
    (hm : m = mp + (if mp < 10 then 3 else -9))
    (hy : y = (if m <= 2 then (yoe + era * 400) + 1 else yoe + era * 400)) :
    daysFromCivil y m d = era * 146097 + w - 719468 := by
  have hmp0 : 0 ≤ mp := by omega
  have hmp11 : mp ≤ 11 := by omega
  have hera : (yoe + era * 400) / 400 = era := by omega
  simp only [daysFromCivil]
  by_cases hc : mp < 10
  · have hm3 : m = mp + 3 := by rw [hm, if_pos hc]
    have hm2 : ¬(m <= 2) := by omega
    have hmgt : m > 2 := by omega
    have hy2 : y = yoe + era * 400 := by rw [hy, if_neg hm2]
    rw [if_neg hm2, if_pos hmgt, hy2, hera]
    have harg : m - 3 = mp := by omega
    rw [harg]
    have hsub : yoe + era * 400 - era * 400 = yoe := by ring
    rw [hsub]
    omega
  · have hm9 : m = mp - 9 := by
      rw [hm, if_neg hc]
      ring
    have hm2 : m <= 2 := by omega
    have hmle : ¬(m > 2) := by omega
    have hy2 : y = (yoe + era * 400) + 1 := by rw [hy, if_pos hm2]
    rw [if_pos hm2, if_neg hmle, hy2]
    have hsub1 : yoe + era * 400 + 1 - 1 = yoe + era * 400 := by ring
    rw [hsub1, hera]
    have harg : m + 9 = mp := by omega
    rw [harg]
    have hsub : yoe + era * 400 - era * 400 = yoe := by ring
    rw [hsub]
    omega

theorem days_civil_roundtrip (z : Int) :
    daysFromCivil (civilFromDays z).1 (civilFromDays z).2.1 (civilFromDays z).2.2 = z := by
  have hw0 : 0 ≤ (z + 719468) % 146097 := by omega
  have hw1 : (z + 719468) % 146097 ≤ 146096 := by omega
  have hyc := yoe_correct ((z + 719468) % 146097) hw0 hw1
  simp only [civilFromDays]
  have h := rt_aux ((z + 719468) / 146097) ((z + 719468) % 146097)
    _ _ _ _ _ _ hw0 hw1 rfl (by omega) (by omega) rfl (by omega) (by omega) rfl rfl rfl rfl
  rw [h]
  omega

theorem daysFromCivil_affine (y m d k : Int) :
    daysFromCivil y m (d + k) = daysFromCivil y m d + k := by
  simp only [daysFromCivil]
  split_ifs <;> omega

/-! ## Derived facts about the `Date` model -/

theorem utc_fields_roundtrip (ms : Int) :
    jsDateUTC (jsGetUTCFullYear ms) (jsGetUTCMonth ms) (jsGetUTCDate ms) =
      utcDayNumber ms * dayMs := by
  unfold jsDateUTC jsGetUTCFullYear jsGetUTCMonth jsGetUTCDate jsUTCCivil utcDayNumber
  rw [sub_add_cancel, days_civil_roundtrip]

theorem local_fields_roundtrip (tz ms : Int) :
    jsDateUTC (jsGetFullYear tz ms) (jsGetMonth tz ms) (jsGetDate tz ms) =
      localDayNumber tz ms * dayMs := by
  unfold jsDateUTC jsGetFullYear jsGetMonth jsGetDate jsLocalCivil localDayNumber
  rw [sub_add_cancel, days_civil_roundtrip]

theorem daysFromCivil_affine_sub (y m d k : Int) :
    daysFromCivil y m (d - k) = daysFromCivil y m d - k := by
  rw [sub_eq_add_neg, daysFromCivil_affine, sub_eq_add_neg]

theorem getDaysBetween_eq (tz nowMs dateMs : Int) :
    getDaysBetween tz nowMs dateMs =
      (utcDayNumber nowMs - localDayNumber tz dateMs).natAbs := by
  unfold getDaysBetween
  rw [utc_fields_roundtrip, local_fields_roundtrip]
  show (utcDayNumber nowMs * dayMs - localDayNumber tz dateMs * dayMs).natAbs / 86400000 =
    (utcDayNumber nowMs - localDayNumber tz dateMs).natAbs
  unfold dayMs
  omega

theorem jsSetDate_shift (tz ms k : Int) :
    jsSetDate tz ms (jsGetDate tz ms - k) = ms - k * dayMs := by
  show daysFromCivil (civilFromDays ((ms - tz * 60000) / dayMs)).1
      (civilFromDays ((ms - tz * 60000) / dayMs)).2.1
      ((civilFromDays ((ms - tz * 60000) / dayMs)).2.2 - k) * dayMs +
      (ms - tz * 60000) % dayMs + tz * 60000 = ms - k * dayMs
  rw [daysFromCivil_affine_sub, days_civil_roundtrip]
  unfold dayMs
  omega

theorem localDayNumber_newDate (tz y m0 d : Int) :
    localDayNumber tz (jsNewDateYMD tz y m0 d) = daysFromCivil y (m0 + 1) d := by
  unfold localDayNumber jsNewDateYMD dayMs
  omega

theorem localCivil_newDate (tz y m0 d : Int) :
    jsLocalCivil tz (jsNewDateYMD tz y m0 d) =
      civilFromDays (daysFromCivil y (m0 + 1) d) := by
  unfold jsLocalCivil jsNewDateYMD dayMs
  have h : daysFromCivil y (m0 + 1) d * 86400000 + tz * 60000 - tz * 60000 =
      daysFromCivil y (m0 + 1) d * 86400000 := by ring
  rw [h]
  have h2 : daysFromCivil y (m0 + 1) d * 86400000 / 86400000 =
      daysFromCivil y (m0 + 1) d := by omega
  rw [h2]

/-! ## Rendering: segment decomposition of the generated XML -/

theorem data_joinAll (l : List String) :
    (joinAll l).data = (l.map String.data).flatten := by
  induction l with
  | nil => rfl
  | cons x xs ih => simp [joinAll, ih]

set_option maxRecDepth 10000 in
theorem itemXML_data (item : RSSItem) :
    (itemXML item).data = ((itemSegments item).map String.data).flatten := by
  simp [itemXML, itemSegments]

theorem items_middle_data (items : List RSSItem) :
    (joinAll (items.map itemXML)).data =
      ((items.flatMap itemSegments).map String.data).flatten := by
  induction items with
  | nil => rfl
  | cons x xs ih => simp [joinAll, ih, itemXML_data]

set_option maxRecDepth 10000 in
theorem generateRSSXML_data (md : FeedMetadata) (items : List RSSItem) :
    (generateRSSXML md items).data =
      ((rssSegments md items).map String.data).flatten := by
  simp [generateRSSXML, rssSegments, items_middle_data]

theorem flatten_mem_split {α : Type} (l : List (List α)) (x : List α) (h : x ∈ l) :
    ∃ p q : List α, l.flatten = p ++ (x ++ q) := by
  induction l with
  | nil => cases h
  | cons a as ih =>
    rcases List.mem_cons.mp h with h1 | h2
    · exact ⟨[], as.flatten, by simp [h1]⟩
    · obtain ⟨p, q, hpq⟩ := ih h2
      exact ⟨a ++ p, q, by simp [hpq]⟩

theorem escape_mem_rssSegments (md : FeedMetadata) (items : List RSSItem) (s : String)
    (h : s ∈ textFields md items) : escapeXML s ∈ rssSegments md items := by
  simp only [textFields, List.mem_append, List.mem_flatMap] at h
  simp only [rssSegments, List.mem_append, List.mem_flatMap]
  rcases h with h | ⟨it, hit, hf⟩
  · fin_cases h <;> simp
  · fin_cases hf <;>
      exact Or.inl (Or.inr ⟨it, hit, by simp [itemSegments]⟩)

/-! ## Correctness of the escaping chain -/

theorem replaceAll_append (c : Char) (r : List Char) (a b : List Char) :
    replaceAll c r (a ++ b) = replaceAll c r a ++ replaceAll c r b := by
  induction a with
  | nil => simp [replaceAll]
  | cons x xs ih =>
    simp only [List.cons_append, replaceAll]
    split_ifs <;> simp [ih]

theorem replaceAll_cons (c : Char) (r : List Char) (x : Char) (xs : List Char) :
    replaceAll c r (x :: xs) = (if x = c then r else [x]) ++ replaceAll c r xs := by
  simp only [replaceAll]
  split_ifs <;> simp

theorem replaceAll_single (c : Char) (r : List Char) (x : Char) :
    replaceAll c r [x] = (if x = c then r else [x]) := by
  rw [replaceAll_cons]
  simp [replaceAll]

theorem escape_chain_eq (l : List Char) :
    replaceAll apos "&apos;".data (replaceAll '"' "&quot;".data
      (replaceAll '>' "&gt;".data (replaceAll '<' "&lt;".data
        (replaceAll '&' "&amp;".data l)))) = l.flatMap escChar := by
  induction l with
  | nil => rfl
  | cons x xs ih =>
    rw [replaceAll_cons '&', replaceAll_append, replaceAll_append, replaceAll_append,
      replaceAll_append, ih, List.flatMap_cons]
    congr 1
    by_cases h1 : x = '&'
    · subst h1
      decide
    · rw [if_neg h1]
      unfold escChar
      rw [if_neg h1]
      by_cases h2 : x = '<'
      · subst h2
        decide
      · rw [if_neg h2, replaceAll_single, if_neg h2]
        by_cases h3 : x = '>'
        · subst h3
          decide
        · rw [if_neg h3, replaceAll_single, if_neg h3]
          by_cases h4 : x = '"'
          · subst h4
            decide
          · rw [if_neg h4, replaceAll_single, if_neg h4]
            by_cases h5 : x = apos
            · subst h5
              decide
            · rw [if_neg h5, replaceAll_single, if_neg h5]

theorem escapeXML_data (s : String) : (escapeXML s).data = s.data.flatMap escChar := by
  show (String.mk _).data = _
  rw [escape_chain_eq]

theorem entityClean_cons_plain (c : Char) (hc1 : isReservedChar c = false)
    (hc2 : ¬(c = '&')) (l : List Char) : entityClean (c :: l) = entityClean l := by
  simp [entityClean, hc1, hc2]

theorem entityClean_cons_amp (l : List Char) :
    entityClean ('&' :: l) = (entityAt l && entityClean l) := by
  have h1 : isReservedChar '&' = false := by decide
  show (if isReservedChar '&' then false
    else if '&' = '&' then entityAt l && entityClean l else entityClean l) = _
  rw [h1]
  simp

theorem entityClean_amp (l : List Char) :
    entityClean ('&' :: 'a' :: 'm' :: 'p' :: ';' :: l) = entityClean l := by
  rw [entityClean_cons_amp]
  have h2 : entityAt ('a' :: 'm' :: 'p' :: ';' :: l) = true := by
    unfold entityAt
    have h : "amp;".data.isPrefixOf ('a' :: 'm' :: 'p' :: ';' :: l) = true := by
      show List.isPrefixOf ('a' :: 'm' :: 'p' :: ';' :: []) _ = true
      simp [List.isPrefixOf]
    simp [h]
  rw [h2]
  rw [entityClean_cons_plain _ (by decide) (by decide),
    entityClean_cons_plain _ (by decide) (by decide),
    entityClean_cons_plain _ (by decide) (by decide),
    entityClean_cons_plain _ (by decide) (by decide)]
  simp

theorem entityClean_lt (l : List Char) :
    entityClean ('&' :: 'l' :: 't' :: ';' :: l) = entityClean l := by
  rw [entityClean_cons_amp]
  have h2 : entityAt ('l' :: 't' :: ';' :: l) = true := by
    unfold entityAt
    have h : "lt;".data.isPrefixOf ('l' :: 't' :: ';' :: l) = true := by
      show List.isPrefixOf ('l' :: 't' :: ';' :: []) _ = true
      simp [List.isPrefixOf]
    simp [h]
  rw [h2]
  rw [entityClean_cons_plain _ (by decide) (by decide),
    entityClean_cons_plain _ (by decide) (by decide),
    entityClean_cons_plain _ (by decide) (by decide)]
  simp

theorem entityClean_gt (l : List Char) :
    entityClean ('&' :: 'g' :: 't' :: ';' :: l) = entityClean l := by
  rw [entityClean_cons_amp]
  have h2 : entityAt ('g' :: 't' :: ';' :: l) = true := by
    unfold entityAt
    have h : "gt;".data.isPrefixOf ('g' :: 't' :: ';' :: l) = true := by
      show List.isPrefixOf ('g' :: 't' :: ';' :: []) _ = true
      simp [List.isPrefixOf]
    simp [h]
  rw [h2]
  rw [entityClean_cons_plain _ (by decide) (by decide),
    entityClean_cons_plain _ (by decide) (by decide),
    entityClean_cons_plain _ (by decide) (by decide)]
  simp

theorem entityClean_quot (l : List Char) :
    entityClean ('&' :: 'q' :: 'u' :: 'o' :: 't' :: ';' :: l) = entityClean l := by
  rw [entityClean_cons_amp]
  have h2 : entityAt ('q' :: 'u' :: 'o' :: 't' :: ';' :: l) = true := by
    unfold entityAt
    have h : "quot;".data.isPrefixOf ('q' :: 'u' :: 'o' :: 't' :: ';' :: l) = true := by
      show List.isPrefixOf ('q' :: 'u' :: 'o' :: 't' :: ';' :: []) _ = true
      simp [List.isPrefixOf]
    simp [h]
  rw [h2]
  rw [entityClean_cons_plain _ (by decide) (by decide),
    entityClean_cons_plain _ (by decide) (by decide),
    entityClean_cons_plain _ (by decide) (by decide),
    entityClean_cons_plain _ (by decide) (by decide),
    entityClean_cons_plain _ (by decide) (by decide)]
  simp

theorem entityClean_apos_chunk (l : List Char) :
    entityClean ('&' :: 'a' :: 'p' :: 'o' :: 's' :: ';' :: l) = entityClean l := by
  rw [entityClean_cons_amp]
  have h2 : entityAt ('a' :: 'p' :: 'o' :: 's' :: ';' :: l) = true := by
    unfold entityAt
    have h : "apos;".data.isPrefixOf ('a' :: 'p' :: 'o' :: 's' :: ';' :: l) = true := by
      show List.isPrefixOf ('a' :: 'p' :: 'o' :: 's' :: ';' :: []) _ = true
      simp [List.isPrefixOf]
    simp [h]
  rw [h2]
  rw [entityClean_cons_plain _ (by decide) (by decide),
    entityClean_cons_plain _ (by decide) (by decide),
    entityClean_cons_plain _ (by decide) (by decide),
    entityClean_cons_plain _ (by decide) (by decide),
    entityClean_cons_plain _ (by decide) (by decide)]
  simp

theorem entityClean_flatMap_escChar (l : List Char) :
    entityClean (l.flatMap escChar) = true := by
  induction l with
  | nil => rfl
  | cons x xs ih =>
    rw [List.flatMap_cons]
    unfold escChar
    by_cases h1 : x = '&'
    · rw [if_pos h1]
      show entityClean ('&' :: 'a' :: 'm' :: 'p' :: ';' :: xs.flatMap escChar) = true
      rw [entityClean_amp, ih]
    · rw [if_neg h1]
      by_cases h2 : x = '<'
      · rw [if_pos h2]
        show entityClean ('&' :: 'l' :: 't' :: ';' :: xs.flatMap escChar) = true
        rw [entityClean_lt, ih]
      · rw [if_neg h2]
        by_cases h3 : x = '>'
        · rw [if_pos h3]
          show entityClean ('&' :: 'g' :: 't' :: ';' :: xs.flatMap escChar) = true
          rw [entityClean_gt, ih]
        · rw [if_neg h3]
          by_cases h4 : x = '"'
          · rw [if_pos h4]
            show entityClean ('&' :: 'q' :: 'u' :: 'o' :: 't' :: ';' :: xs.flatMap escChar) = true
            rw [entityClean_quot, ih]
          · rw [if_neg h4]
            by_cases h5 : x = apos
            · rw [if_pos h5]
              show entityClean ('&' :: 'a' :: 'p' :: 'o' :: 's' :: ';' :: xs.flatMap escChar) = true
              rw [entityClean_apos_chunk, ih]
            · rw [if_neg h5]
              show entityClean (x :: xs.flatMap escChar) = true
              rw [entityClean_cons_plain x ?hres h1, ih]
              unfold isReservedChar
              simp [h2, h3, h4, h5]

theorem entityClean_escapeXML (s : String) : entityClean (escapeXML s).data = true := by
  rw [escapeXML_data]
  exact entityClean_flatMap_escChar s.data

/-! ## Structure of the schedule engine -/

theorem expandBooks_length (bs : List (String × Nat)) :
    (expandBooks bs).length = (bs.map fun p => p.2).sum := by
  induction bs with
  | nil => rfl
  | cons p ps ih =>
    rw [show expandBooks (p :: ps) =
      ((List.range p.2).map fun i => ⟨p.1, i + 1⟩) ++ expandBooks ps from rfl]
    simp [ih]

theorem fullBookList_length : fullBookList.length = 1189 := by
  rw [show fullBookList = expandBooks (otBooks ++ ntBooks) from rfl, expandBooks_length]
  decide

theorem otBookList_length : otBookList.length = 929 := by
  rw [show otBookList = expandBooks otBooks from rfl, expandBooks_length]
  decide

theorem ntBookList_length : ntBookList.length = 260 := by
  rw [show ntBookList = expandBooks ntBooks from rfl, expandBooks_length]
  decide

theorem bookListFor_length_pos (plan : String) : 0 < (bookListFor plan).length := by
  unfold bookListFor
  split_ifs
  all_goals first
    | (rw [fullBookList_length]; omega)
    | (rw [otBookList_length]; omega)
    | (rw [ntBookList_length]; omega)

theorem BuildRSSFeedItems_length (tz nowMs : Int) (plan translation : String)
    (startDate : Int) (n : Nat) :
    (BuildRSSFeedItems tz nowMs plan translation startDate n).length =
      min (min (getDaysBetween tz nowMs startDate * n) 1189) (bookListFor plan).length := by
  simp [BuildRSSFeedItems]

theorem BuildRSSFeedItems_get (tz nowMs : Int) (plan translation : String)
    (startDate : Int) (n : Nat) (i : Nat)
    (h : i < (BuildRSSFeedItems tz nowMs plan translation startDate n).length) :
    ∃ hb : i < (bookListFor plan).length,
      (BuildRSSFeedItems tz nowMs plan translation startDate n).get ⟨i, h⟩ =
        processChapter tz nowMs plan translation n (getDaysBetween tz nowMs startDate)
          ((bookListFor plan).get ⟨i, hb⟩) i := by
  have hlen := BuildRSSFeedItems_length tz nowMs plan translation startDate n
  have hb : i < (bookListFor plan).length := by omega
  refine ⟨hb, ?_⟩
  simp [BuildRSSFeedItems, List.get_eq_getElem, List.getElem_mapIdx, List.getElem_take]

theorem processChapter_date (tz nowMs : Int) (plan translation : String)
    (n db : Nat) (c : BookChapter) (i : Nat) :
    (processChapter tz nowMs plan translation n db c i).date =
      nowMs - (1 + ((db : Int) - (ceilDiv (i + 1) n : Int))) * dayMs := by
  show jsSetDate tz nowMs (jsGetDate tz nowMs - 1 - ((db : Int) - (ceilDiv (i + 1) n : Int))) = _
  have harg : jsGetDate tz nowMs - 1 - ((db : Int) - (ceilDiv (i + 1) n : Int)) =
      jsGetDate tz nowMs - (1 + ((db : Int) - (ceilDiv (i + 1) n : Int))) := by ring
  rw [harg, jsSetDate_shift]

theorem jsGetMonth_newDate (tz y m0 d : Int) :
    jsGetMonth tz (jsNewDateYMD tz y m0 d) =
      (civilFromDays (daysFromCivil y (m0 + 1) d)).2.1 - 1 := by
  unfold jsGetMonth
  rw [localCivil_newDate]

theorem dateAccepted_tz_indep (tz1 tz2 : Int) (raw : String) :
    dateAccepted tz1 raw = dateAccepted tz2 raw := by
  unfold dateAccepted
  rcases h1 : jsParseInt (jsSubstring raw 0 4) with _ | y <;>
    rcases h2 : jsParseInt (jsSubstring raw 4 6) with _ | m <;>
    rcases h3 : jsParseInt (jsSubstring raw 6 8) with _ | d <;>
    simp [jsGetMonth_newDate]

theorem getDaysBetween_newDate (tz nowMs y m0 d : Int) :
    getDaysBetween tz nowMs (jsNewDateYMD tz y m0 d) =
      (utcDayNumber nowMs - daysFromCivil y (m0 + 1) d).natAbs := by
  rw [getDaysBetween_eq, localDayNumber_newDate]

theorem SanitizeDate_eq (tz nowMs : Int) (raw : String) :
    SanitizeDate tz nowMs raw =
      (if dateAccepted tz raw then parsedDateMs tz raw else nowMs) := by
  unfold SanitizeDate dateAccepted parsedDateMs
  by_cases hlen : raw.length = 8
  · simp only [hlen, ne_eq, not_true_eq_false, if_false]
    rcases h1 : jsParseInt (jsSubstring raw 0 4) with _ | y <;>
      rcases h2 : jsParseInt (jsSubstring raw 4 6) with _ | m <;>
      rcases h3 : jsParseInt (jsSubstring raw 6 8) with _ | d <;>
      simp only [Option.map_none, Option.map_some, jsNumLt, jsNumGt, jsNewDateOpt,
        jsGetMonthOpt, jsStrictNe, Option.map]
    all_goals (split_ifs <;> simp_all <;> omega)
  · have hne : raw.length ≠ 8 := hlen
    simp [hne, hlen]

theorem RSSItem_ext {a b : RSSItem} (h1 : a.title = b.title)
    (h2 : a.description = b.description) (h3 : a.url = b.url)
    (h4 : a.author = b.author) (h5 : a.date = b.date) : a = b := by
  cases a
  cases b
  simp_all

/-! ## The claims -/

/-- Claim C1: for every sanitized input (plan, translation, startDate,
chaptersPerDay) and every fixed current date, `BuildRSSFeedItems` returns at
most min(elapsedDays × chaptersPerDay, 1189) items, and never more items
than the length of the catalog selected by the plan. -/
theorem C1_item_count_bounds (tz nowMs : Int) (plan translation : String)
    (startDate : Int) (n : Nat) :
    (BuildRSSFeedItems tz nowMs plan translation startDate n).length ≤
      min (getDaysBetween tz nowMs startDate * n) 1189 ∧
    (BuildRSSFeedItems tz nowMs plan translation startDate n).length ≤
      (bookListFor plan).length := by
  have h := BuildRSSFeedItems_length tz nowMs plan translation startDate n
  omega

/-- Claim C10: the length of the returned list is exactly
min(elapsedDays × chaptersPerDay, 1189, catalog length); the list is empty
exactly when elapsedDays × chaptersPerDay = 0; an unrecognized plan key
selects the full-Bible catalog. -/
theorem C10_item_count_exact (tz nowMs : Int) (plan translation : String)
    (startDate : Int) (n : Nat) :
    (BuildRSSFeedItems tz nowMs plan translation startDate n).length =
      min (min (getDaysBetween tz nowMs startDate * n) 1189) (bookListFor plan).length ∧
    (BuildRSSFeedItems tz nowMs plan translation startDate n = [] ↔
      getDaysBetween tz nowMs startDate * n = 0) ∧
    (plan ≠ "full" → plan ≠ "ot" → plan ≠ "nt" → bookListFor plan = fullBookList) := by
  have h := BuildRSSFeedItems_length tz nowMs plan translation startDate n
  have hpos := bookListFor_length_pos plan
  refine ⟨h, ?_, ?_⟩
  · rw [← List.length_eq_zero]
    omega
  · intro h1 h2 h3
    unfold bookListFor
    rw [if_neg h1, if_neg h2, if_neg h3]

/-- Witness for C10: the unrecognized plan key "xyz" selects the full-Bible
catalog. -/
theorem C10_item_count_exact_witness : bookListFor "xyz" = fullBookList :=
  (C10_item_count_exact 0 0 "xyz" "ESV" 0 1).2.2 (by decide) (by decide) (by decide)

/-- Claim C9: `getDaysBetween` returns the absolute difference in whole UTC
days between the current date and the start date (hence always
non-negative, being a `Nat`), and a start date `d` days in the future
yields the same count as a start date `d` days in the past. -/
theorem C9_days_between_abs (tz nowMs dateMs : Int) :
    getDaysBetween tz nowMs dateMs =
      (utcDayNumber nowMs - localDayNumber tz dateMs).natAbs ∧
    ∀ d : Int,
      getDaysBetween tz nowMs (localMidnightOfDay tz (utcDayNumber nowMs + d)) =
        getDaysBetween tz nowMs (localMidnightOfDay tz (utcDayNumber nowMs - d)) := by
  refine ⟨getDaysBetween_eq tz nowMs dateMs, ?_⟩
  intro d
  rw [getDaysBetween_eq, getDaysBetween_eq]
  have h1 : localDayNumber tz (localMidnightOfDay tz (utcDayNumber nowMs + d)) =
      utcDayNumber nowMs + d := by
    unfold localDayNumber localMidnightOfDay dayMs
    omega
  have h2 : localDayNumber tz (localMidnightOfDay tz (utcDayNumber nowMs - d)) =
      utcDayNumber nowMs - d := by
    unfold localDayNumber localMidnightOfDay dayMs
    omega
  rw [h1, h2]
  omega

/-- Claim C7: `SanitizeDate` returns the parsed calendar date exactly when
the string has length 8, its year is in [1900, 2100], its month is in
[1, 12], its day is in [1, 31], and constructing the date does not roll
over into a different month (checked by comparing the constructed date's
month with the requested month); for every other input it returns the
current date; being a total function, it never raises a failure. -/
theorem C7_sanitize_date (tz nowMs : Int) (raw : String) :
    SanitizeDate tz nowMs raw =
      (if dateAccepted tz raw then parsedDateMs tz raw else nowMs) :=
  SanitizeDate_eq tz nowMs raw

/-- Claim C8: `SanitizeChapters` returns 1 for strings longer than 2
characters, unparsable strings, and parsed values outside [1, 99];
otherwise it returns the parsed integer, and the result always lies in
[1, 99]; in particular `SanitizeChapters "0" = 1` and
`SanitizeChapters "100" = 1`. -/
theorem C8_sanitize_chapters (raw : String) :
    (raw.length > 2 → SanitizeChapters raw = 1) ∧
    (jsParseInt raw = none → SanitizeChapters raw = 1) ∧
    (∀ r : Int, jsParseInt raw = some r → (r < 1 ∨ 99 < r) → SanitizeChapters raw = 1) ∧
    (∀ r : Int, jsParseInt raw = some r → 1 ≤ r → r ≤ 99 → ¬(raw.length > 2) →
      SanitizeChapters raw = r.toNat) ∧
    1 ≤ SanitizeChapters raw ∧ SanitizeChapters raw ≤ 99 ∧
    SanitizeChapters "0" = 1 ∧ SanitizeChapters "100" = 1 := by
  refine ⟨?_, ?_, ?_, ?_, ?_, ?_, by decide, by decide⟩
  · intro h
    unfold SanitizeChapters
    rw [if_pos h]
  · intro h
    unfold SanitizeChapters
    split_ifs
    · rfl
    · rw [h]
  · intro r hr hout
    unfold SanitizeChapters
    split_ifs
    · rfl
    · rw [hr]
      show (if (decide (r < 1) || decide (r > 99)) = true then 1 else r.toNat) = 1
      have hc : (decide (r < 1) || decide (r > 99)) = true := by
        rcases hout with h | h <;> simp [h]
      rw [if_pos hc]
  · intro r hr h1 h99 hlen
    unfold SanitizeChapters
    rw [if_neg hlen, hr]
    show (if (decide (r < 1) || decide (r > 99)) = true then 1 else r.toNat) = r.toNat
    have hc : (decide (r < 1) || decide (r > 99)) = false := by
      simp
      omega
    rw [hc]
    rfl
  · unfold SanitizeChapters
    split_ifs
    · omega
    · rcases hp : jsParseInt raw with _ | r
      · simp
      · simp only []
        show 1 ≤ (if (decide (r < 1) || decide (r > 99)) = true then 1 else r.toNat)
        split_ifs with hc
        · omega
        · simp at hc
          omega
  · unfold SanitizeChapters
    split_ifs
    · omega
    · rcases hp : jsParseInt raw with _ | r
      · simp
      · show (if (decide (r < 1) || decide (r > 99)) = true then 1 else r.toNat) ≤ 99
        split_ifs with hc
        · omega
        · simp at hc
          omega

/-- Witness for C8: a two-character in-range value is returned as parsed. -/
theorem C8_sanitize_chapters_witness : SanitizeChapters "42" = Int.toNat 42 :=
  (C8_sanitize_chapters "42").2.2.2.1 42 (by decide) (by decide) (by decide) (by decide)

/-- Claim C3 (code bug): the canonical feed URL embedded in the metadata
puts the formatted start date before the translation, contradicting the
documented route shape `/rssbible/{plan}/{translation}/{startDate}/{chapters}/feed.rss`
consumed by the fetch handler's route pattern. -/
theorem C3_feedUrl_segment_order :
    handlerFeedUrl 0 "ot" "ESV" (SanitizeDate 0 0 "20260101") 1 =
      "https://www.bibleplanfeed.com/rssbible/ot/20260101/ESV/1/feed.rss" ∧
    routeShapeUrl "ot" "ESV" "20260101" "1" =
      "https://www.bibleplanfeed.com/rssbible/ot/ESV/20260101/1/feed.rss" ∧
    handlerFeedUrl 0 "ot" "ESV" (SanitizeDate 0 0 "20260101") 1 ≠
      routeShapeUrl "ot" "ESV" "20260101" "1" := by
  refine ⟨by decide, by decide, by decide⟩

/-- Claim C4: every taken catalog entry at zero-based index `i` yields a
feed item titled `"<Book> <ChapterNumber>"`, described as
`"Day <dayNumber> of <PLAN> plan in <TRANSLATION>"` with
`dayNumber = ceil((i+1)/chaptersPerDay)` and plan/translation uppercased,
authored `"Bible Gateway"`, and linked to the fixed Bible Gateway search
endpoint followed by the percent-encoded book name, a literal `"%20"`,
the chapter number, and `"&version="` plus the translation code. -/
theorem C4_item_shape (tz nowMs : Int) (plan translation : String) (startDate : Int)
    (n : Nat) (i : Nat)
    (h : i < (BuildRSSFeedItems tz nowMs plan translation startDate n).length) :
    ∃ hb : i < (bookListFor plan).length,
      ((BuildRSSFeedItems tz nowMs plan translation startDate n).get ⟨i, h⟩).title =
        ((bookListFor plan).get ⟨i, hb⟩).Book ++ " " ++
          toString ((bookListFor plan).get ⟨i, hb⟩).Chapter ∧
      ((BuildRSSFeedItems tz nowMs plan translation startDate n).get ⟨i, h⟩).description =
        "Day " ++ toString (ceilDiv (i + 1) n) ++ " of " ++ jsToUpperCase plan ++
          " plan in " ++ jsToUpperCase translation ∧
      ((BuildRSSFeedItems tz nowMs plan translation startDate n).get ⟨i, h⟩).author =
        "Bible Gateway" ∧
      ((BuildRSSFeedItems tz nowMs plan translation startDate n).get ⟨i, h⟩).url =
        "https://www.biblegateway.com/passage/?search=" ++
          encodeURIComponent ((bookListFor plan).get ⟨i, hb⟩).Book ++ "%20" ++
          toString ((bookListFor plan).get ⟨i, hb⟩).Chapter ++ "&version=" ++ translation := by
  obtain ⟨hb, heq⟩ := BuildRSSFeedItems_get tz nowMs plan translation startDate n i h
  refine ⟨hb, ?_, ?_, ?_, ?_⟩ <;> rw [heq] <;> rfl

set_option maxRecDepth 100000 in
/-- Witness for C4: the first Old Testament item is titled "Genesis 1". -/
theorem C4_item_shape_witness :
    ((BuildRSSFeedItems 0 1767225600000 "ot" "ESV" 1767139200000 1).get
      ⟨0, by decide⟩).title = "Genesis 1" := by
  obtain ⟨hb, h1, h2, h3, h4⟩ :=
    C4_item_shape 0 1767225600000 "ot" "ESV" 1767139200000 1 0 (by decide)
  have hG : ((bookListFor "ot").get ⟨0, by decide⟩).Book ++ " " ++
      toString ((bookListFor "ot").get ⟨0, by decide⟩).Chapter = "Genesis 1" := by decide
  exact h1.trans hG

/-- Counterexample to claim C5 as stated: with the current instant at noon
UTC (timezone offset 0), every produced publish date also carries the noon
time of day, so it is not a calendar date at local midnight. -/
theorem C5_pubdate_not_midnight :
    (BuildRSSFeedItems 0 1767700800000 "ot" "ESV" 1767225600000 1).map
        (fun it => it.date % 86400000) =
      [43200000, 43200000, 43200000, 43200000, 43200000] ∧
    (43200000 : Int) ≠ 0 := by
  refine ⟨by decide, by decide⟩

/-- Claim C5 (amended): every produced feed item's publish date equals the
current instant minus (1 + (elapsedDays − dayNumber)) exact 24-hour days —
retaining the current time of day rather than being set to local
midnight. -/
theorem C5_pubdate_amended (tz nowMs : Int) (plan translation : String)
    (startDate : Int) (n : Nat) (i : Nat)
    (h : i < (BuildRSSFeedItems tz nowMs plan translation startDate n).length) :
    ((BuildRSSFeedItems tz nowMs plan translation startDate n).get ⟨i, h⟩).date =
      nowMs - (1 + ((getDaysBetween tz nowMs startDate : Int) -
        (ceilDiv (i + 1) n : Int))) * dayMs := by
  obtain ⟨hb, heq⟩ := BuildRSSFeedItems_get tz nowMs plan translation startDate n i h
  rw [heq, processChapter_date]

/-- Witness for the amended C5 at a concrete schedule. -/
theorem C5_pubdate_amended_witness :
    ((BuildRSSFeedItems 0 1767700800000 "ot" "ESV" 1767225600000 1).get
      ⟨0, by decide⟩).date =
      1767700800000 - (1 + ((getDaysBetween 0 1767700800000 1767225600000 : Int) -
        (ceilDiv 1 1 : Int))) * dayMs :=
  C5_pubdate_amended 0 1767700800000 "ot" "ESV" 1767225600000 1 0 (by decide)

/-- Claim C2: every text field inserted into the rendered feed (item title,
description, link, author, and every metadata string) passes through
`escapeXML` — its escaped form appears verbatim in the output of
`generateRSSXML` — and in that escaped form each of the five reserved
markup characters occurs only as its entity equivalent, never raw. -/
theorem C2_fields_escaped (md : FeedMetadata) (items : List RSSItem) (s : String)
    (hmem : s ∈ textFields md items) (hres : containsReserved s = true) :
    (∃ p q : List Char,
      (generateRSSXML md items).data = p ++ ((escapeXML s).data ++ q)) ∧
    entityClean (escapeXML s).data = true := by
  constructor
  · have h1 := escape_mem_rssSegments md items s hmem
    have h2 : (escapeXML s).data ∈ (rssSegments md items).map String.data :=
      List.mem_map_of_mem _ h1
    obtain ⟨p, q, hpq⟩ := flatten_mem_split _ _ h2
    exact ⟨p, q, by rw [generateRSSXML_data, hpq]⟩
  · exact entityClean_escapeXML s

/-- Witness for C2: the sample metadata's description contains raw `<` and
`&`, and its escaped form appears in the rendered feed. -/
theorem C2_fields_escaped_witness :
    (∃ p q : List Char,
      (generateRSSXML sampleMetadata []).data = p ++ ((escapeXML "a<b&c").data ++ q)) ∧
    entityClean (escapeXML "a<b&c").data = true :=
  C2_fields_escaped sampleMetadata [] "a<b&c" (by decide) (by decide)

theorem BuildRSSFeedItems_tz_indep (tz1 tz2 nowMs : Int) (plan translation : String)
    (y m0 d : Int) (n : Nat) :
    BuildRSSFeedItems tz1 nowMs plan translation (jsNewDateYMD tz1 y m0 d) n =
      BuildRSSFeedItems tz2 nowMs plan translation (jsNewDateYMD tz2 y m0 d) n := by
  have hdb : getDaysBetween tz1 nowMs (jsNewDateYMD tz1 y m0 d) =
      getDaysBetween tz2 nowMs (jsNewDateYMD tz2 y m0 d) := by
    rw [getDaysBetween_newDate, getDaysBetween_newDate]
  apply List.ext_getElem
  · rw [BuildRSSFeedItems_length, BuildRSSFeedItems_length, hdb]
  · intro i h1 h2
    show (BuildRSSFeedItems tz1 nowMs plan translation (jsNewDateYMD tz1 y m0 d) n).get
        ⟨i, h1⟩ =
      (BuildRSSFeedItems tz2 nowMs plan translation (jsNewDateYMD tz2 y m0 d) n).get ⟨i, h2⟩
    obtain ⟨hb1, he1⟩ :=
      BuildRSSFeedItems_get tz1 nowMs plan translation (jsNewDateYMD tz1 y m0 d) n i h1
    obtain ⟨hb2, he2⟩ :=
      BuildRSSFeedItems_get tz2 nowMs plan translation (jsNewDateYMD tz2 y m0 d) n i h2
    rw [he1, he2, hdb]
    refine RSSItem_ext ?_ ?_ ?_ ?_ ?_
    · rfl
    · rfl
    · rfl
    · rfl
    · rw [processChapter_date, processChapter_date]

/-- Counterexample to claim C6 as stated: with an invalid start-date string
(falling back to the current date) and a current instant at 23:30 UTC, an
offset-0 server and a UTC+2 server (offset −120) produce different feeds
(zero items versus one item). -/
theorem C6_pipeline_tz_dependent :
    (BuildRSSFeedItems 0 1767310200000 "ot" "ESV"
      (SanitizeDate 0 1767310200000 "x") 1).length = 0 ∧
    (BuildRSSFeedItems (-120) 1767310200000 "ot" "ESV"
      (SanitizeDate (-120) 1767310200000 "x") 1).length = 1 ∧
    BuildRSSFeedItems 0 1767310200000 "ot" "ESV"
        (SanitizeDate 0 1767310200000 "x") 1 ≠
      BuildRSSFeedItems (-120) 1767310200000 "ot" "ESV"
        (SanitizeDate (-120) 1767310200000 "x") 1 := by
  have h0 : (BuildRSSFeedItems 0 1767310200000 "ot" "ESV"
      (SanitizeDate 0 1767310200000 "x") 1).length = 0 := by decide
  have h1 : (BuildRSSFeedItems (-120) 1767310200000 "ot" "ESV"
      (SanitizeDate (-120) 1767310200000 "x") 1).length = 1 := by decide
  refine ⟨h0, h1, fun heq => ?_⟩
  have := congrArg List.length heq
  omega

/-- Claim C6 (amended): for accepted start-date strings the pipeline
(SanitizeDate, getDaysBetween, BuildRSSFeedItems) is independent of the
server's local timezone; the divergence arises only through the
current-date fallback for rejected date strings. -/
theorem C6_pipeline_tz_amended (tz1 tz2 nowMs : Int)
    (plan translation rawDate : String) (n : Nat)
    (h : dateAccepted tz1 rawDate = true) :
    BuildRSSFeedItems tz1 nowMs plan translation (SanitizeDate tz1 nowMs rawDate) n =
      BuildRSSFeedItems tz2 nowMs plan translation (SanitizeDate tz2 nowMs rawDate) n := by
  have h2 : dateAccepted tz2 rawDate = true := by
    rw [← dateAccepted_tz_indep tz1 tz2]
    exact h
  rw [SanitizeDate_eq, SanitizeDate_eq, if_pos h, if_pos h2]
  unfold parsedDateMs
  rcases hp1 : jsParseInt (jsSubstring rawDate 0 4) with _ | y <;>
    rcases hp2 : jsParseInt (jsSubstring rawDate 4 6) with _ | m <;>
    rcases hp3 : jsParseInt (jsSubstring rawDate 6 8) with _ | d <;>
    first
    | exact BuildRSSFeedItems_tz_indep tz1 tz2 nowMs plan translation y (m - 1) d n
    | (exfalso
       unfold dateAccepted at h
       rw [hp1, hp2, hp3] at h
       simp at h)

/-- Witness for the amended C6 at a concrete accepted date. -/
theorem C6_pipeline_tz_amended_witness :
    BuildRSSFeedItems 0 1767310200000 "ot" "ESV"
        (SanitizeDate 0 1767310200000 "20260101") 1 =
      BuildRSSFeedItems (-120) 1767310200000 "ot" "ESV"
        (SanitizeDate (-120) 1767310200000 "20260101") 1 :=
  C6_pipeline_tz_amended 0 (-120) 1767310200000 "ot" "ESV" "20260101" 1 (by decide)
